import Mathlib

set_option maxRecDepth 8000

/-!
Shallow embedding of the METPV decoders of this repository:
* `src/metpv_11_automation/convert_metpv11_FINAL_CORRECT.py` (vertical,
  fixed-width format), and
* `src/metpv_20_automation/convert_horizontal_pysam.py` (horizontal,
  comma-delimited format).

Conventions of the embedding:
* A text line / CSV cell is a `List Char`; a CSV row is a `List (List Char)`.
* Python `float` values are embedded as exact rationals (`Rat`).  Decimal
  literals of the source (`2.7778`, `0.1`, `10000.0 / 3600.0`) are embedded as
  the exact rationals they denote; `float('nan')`, `float('inf')` and
  underscore digit grouping are not modelled (no input of interest uses them).
* `np.nan` / a missing value is `Option.none`.
* A Python `dict` is an association list that keeps insertion order; updating
  an existing key rewrites its value in place, as CPython does.
* Timestamps are hour offsets (`Nat`) from the anchor 2016-01-01 00:00 used by
  both scripts.
* An uncaught Python exception that aborts the run is `Except.error ()`.
-/

namespace MetPV

/-- Python slice `l[a:b]` (clamping, empty when `b ≤ a`). -/
def slice (l : List Char) (a b : Nat) : List Char := (l.take b).drop a

/-- Python `str.strip()`: drop leading and trailing whitespace. -/
def stripChars (cs : List Char) : List Char :=
  ((cs.dropWhile Char.isWhitespace).reverse.dropWhile Char.isWhitespace).reverse

/-- Accumulate decimal digits; `none` on the first non-digit character. -/
def digitsAux : List Char → Nat → Option Nat
  | [], acc => some acc
  | c :: cs, acc =>
    if c.isDigit then digitsAux cs (acc * 10 + (c.toNat - 48)) else none

/-- Parse a non-empty all-digit string to a `Nat`. -/
def digitsToNat (cs : List Char) : Option Nat :=
  match cs with
  | [] => none
  | _ => digitsAux cs 0

/-- Python `int(s)` on an already-stripped string: optional sign, digits. -/
def parseIntChars : List Char → Option Int
  | '-' :: cs => (digitsToNat cs).map (fun n => -(n : Int))
  | '+' :: cs => (digitsToNat cs).map (fun n => (n : Int))
  | cs => (digitsToNat cs).map (fun n => (n : Int))

/-- Numeric value of an all-digit string (0 when empty). -/
def natOfDigits (cs : List Char) : Nat :=
  cs.foldl (fun a c => a * 10 + (c.toNat - 48)) 0

def allDigits (cs : List Char) : Bool := cs.all Char.isDigit

/-- Unsigned decimal without exponent: `12`, `12.`, `.5`, `12.5`. -/
def parseDecChars (cs : List Char) : Option Rat :=
  let ip := cs.takeWhile (fun c => c != '.')
  let rest := cs.dropWhile (fun c => c != '.')
  match rest with
  | [] => if !ip.isEmpty && allDigits ip then some ((natOfDigits ip : Nat) : Rat) else none
  | _ :: fp =>
    if (!ip.isEmpty || !fp.isEmpty) && allDigits ip && allDigits fp then
      some ((natOfDigits ip : Rat) + (natOfDigits fp : Rat) / ((10 : Rat) ^ fp.length))
    else none

/-- Unsigned float with optional exponent part. -/
def parseMag (cs : List Char) : Option Rat :=
  let mant := cs.takeWhile (fun c => c != 'e' && c != 'E')
  let rest := cs.dropWhile (fun c => c != 'e' && c != 'E')
  match rest with
  | [] => parseDecChars mant
  | _ :: ecs =>
    match parseDecChars mant, parseIntChars ecs with
    | some m, some e =>
      some (if 0 ≤ e then m * (10 : Rat) ^ e.toNat else m / (10 : Rat) ^ (-e).toNat)
    | _, _ => none

/-- Signed float body (input assumed already stripped). -/
def parseFloatChars : List Char → Option Rat
  | '-' :: cs => (parseMag cs).map (fun q => -q)
  | '+' :: cs => parseMag cs
  | cs => parseMag cs

/-- Python `float(s)`: `float` itself strips surrounding whitespace. -/
def pyFloat (cs : List Char) : Option Rat := parseFloatChars (stripChars cs)

/-- Python `int(q)` on a float: truncation toward zero. -/
def pyTrunc (q : Rat) : Int := if q < 0 then -((-q).floor) else q.floor

/-! ## Vertical decoder (`convert_metpv11_FINAL_CORRECT.py`) -/

/-- Station metadata taken from the vertical header line. -/
structure VHeader where
  sid : List Char
  sname : List Char
  lat : Rat
  lon : Rat
  elev : Rat
deriving DecidableEq

/--
Header parse of the vertical script (module level, lines 16-21 of the source):
`lat = float(header[26:31]) + float(header[31:36])/60.0`, similarly `lon`,
`elevation = float(header[46:54])`.  There is no `try` around these calls: a
`ValueError` from any `float` propagates and aborts the script, which this
embedding reports as `none`.
-/
def parseHeaderV (header : List Char) : Option VHeader :=
  match pyFloat (slice header 26 31), pyFloat (slice header 31 36),
        pyFloat (slice header 36 41), pyFloat (slice header 41 46),
        pyFloat (slice header 46 54) with
  | some latd, some latm, some lond, some lonm, some el =>
    some ⟨stripChars (slice header 0 5), stripChars (slice header 6 26),
          latd + latm / 60, lond + lonm / 60, el⟩
  | _, _, _, _, _ => none

/-- The 4 value bytes of hour slot `h`: `line[15+5*h : 15+5*h+4]`. -/
def field4 (line : List Char) (h : Nat) : List Char :=
  slice line (15 + 5 * h) (15 + 5 * h + 4)

/--
One hourly field of a vertical data line: `int(field[0:4].strip())`; value
`8888` is the missing sentinel; a parse failure is caught and recorded as
missing (`except: append(np.nan)`).
-/
def decodeHour (line : List Char) (h : Nat) : Option Int :=
  match parseIntChars (stripChars (field4 line h)) with
  | some v => if v = 8888 then none else some v
  | none => none

/-- The 24 hourly values of one accepted vertical line, in slot order. -/
def hourlyValues (line : List Char) : List (Option Int) :=
  (List.range 24).map (decodeHour line)

/-- `element_code = line[0:5].strip()`. -/
def elemCode (line : List Char) : String := String.mk (stripChars (slice line 0 5))

/-- `data_rows`: Python dict element code → accumulated hourly values. -/
abbrev DataRows := List (String × List (Option Int))

def drLookup : DataRows → String → Option (List (Option Int))
  | [], _ => none
  | (k, vs) :: rest, c => if k = c then some vs else drLookup rest c

/-- `data_rows[code].extend(hourly_values)` with `[]` default for a new code. -/
def drExtend : DataRows → String → List (Option Int) → DataRows
  | [], k, vs => [(k, vs)]
  | (k', vs') :: rest, k, vs =>
    if k' = k then (k', vs' ++ vs) :: rest else (k', vs') :: drExtend rest k vs

/-- Body of the `for line in lines[1:]` loop: skip lines under 130 chars. -/
def processVLine (d : DataRows) (line : List Char) : DataRows :=
  if line.length < 130 then d else drExtend d (elemCode line) (hourlyValues line)

def buildDataRows (lines : List (List Char)) : DataRows :=
  lines.foldl processVLine []

/-- `if len(vals) < 8760: vals = vals + [np.nan] * (8760 - len(vals))`. -/
def padTo (n : Nat) (vals : List (Option Int)) : List (Option Int) :=
  if vals.length < n then vals ++ List.replicate (n - vals.length) none else vals

/-- `np.array(vals) * scale` on one element: `nan * scale = nan`. -/
def scaleOpt (scale : Rat) (o : Option Int) : Option Rat :=
  o.map (fun v : Int => (v : Rat) * scale)

/--
`get_param(code, scale)` of the source: fetch the accumulated sequence
(`[]` default), pad with `np.nan` up to 8760, slice to 8760, scale
(`nan * scale = nan`).
-/
def get_param (d : DataRows) (code : String) (scale : Rat) : List (Option Rat) :=
  ((padTo 8760 ((drLookup d code).getD [])).take 8760).map (scaleOpt scale)

@[simp] theorem scaleOpt_none (scale : Rat) : scaleOpt scale none = none := rfl

/-- Source literal `2.7778` (the script's rounded 0.01 MJ/m² → W/m² factor). -/
def vIrrScale : Rat := (27778 : Rat) / 10000

/-- Source literal `0.1` for the temperature channel. -/
def vTempScale : Rat := (1 : Rat) / 10

/-- Source literal `0.1` for the wind channel. -/
def vWindScale : Rat := (1 : Rat) / 10

/-- The columns of the vertical script's output frame, in dict-literal order. -/
def vColumnNames : List String :=
  ["DateTime", "GHI", "DNI_horiz", "DHI", "Temperature", "WindSpeed",
   "Latitude", "Longitude", "Elevation"]

/-- The output frame of the vertical script (`DateTime` as hour offsets). -/
structure VOutput where
  dateTime : List Nat
  GHI : List (Option Rat)
  DNI_horiz : List (Option Rat)
  DHI : List (Option Rat)
  Temperature : List (Option Rat)
  WindSpeed : List (Option Rat)
  Latitude : Rat
  Longitude : Rat
  Elevation : Rat
deriving DecidableEq

/--
The whole vertical run.  `lines[0]` on an empty file raises (`error`); a header
field that fails `float` raises before any data line is decoded (`error`);
otherwise all data lines are folded into `data_rows` and the frame is built
from the five registered element codes with the source's scale literals.
-/
def convertV1 (mh : Option VHeader) (d : DataRows) : Except Unit VOutput :=
  match mh with
  | none => .error ()
  | some hd =>
    .ok { dateTime := List.range 8760
          GHI := get_param d "00001" vIrrScale
          DNI_horiz := get_param d "00002" vIrrScale
          DHI := get_param d "00003" vIrrScale
          Temperature := get_param d "00005" vTempScale
          WindSpeed := get_param d "00007" vWindScale
          Latitude := hd.lat
          Longitude := hd.lon
          Elevation := hd.elev }

def convertVertical : List (List Char) → Except Unit VOutput
  | [] => .error ()
  | header :: rest => convertV1 (parseHeaderV header) (buildDataRows rest)

/-- The five element codes the vertical frame construction reads. -/
def knownVCodes : List String := ["00001", "00002", "00003", "00005", "00007"]

/-- Latitude, longitude, elevation of a completed vertical run. -/
def vMetaOf : Except Unit VOutput → Option (Rat × Rat × Rat)
  | .ok o => some (o.Latitude, o.Longitude, o.Elevation)
  | .error _ => none

example : parseIntChars ("8888".toList) = some 8888 := by decide
example : pyFloat ("abc".toList) = none := by decide
example : decodeHour ("ABCDE 0101     8888  10 ".toList) 0 = none := by decide
example : decodeHour ("ABCDE 0101     8888  10 ".toList) 1 = some 10 := by decide

/-! ## Horizontal decoder (`convert_horizontal_pysam.py`) -/

/-- A CSV row as produced by `csv.reader`. -/
abbrev Row := List (List Char)

/-- `row[i]` with an out-of-range default (never hit after the length guard). -/
def cellAt (row : Row) (i : Nat) : List Char := row.getD i []

/--
The horizontal script's `metadata` dict after the header `try` block: keys
`lat`, `lon`, `elev` are assigned in this order, each by a statement that can
raise inside the `try`, so a failure leaves a prefix of the keys assigned.
-/
structure HMeta where
  lat : Option Rat
  lon : Option Rat
  elev : Option Rat
deriving DecidableEq

def HMeta.empty : HMeta := ⟨none, none, none⟩

/--
`header = next(reader)` handling (source lines 16-23): when the row has at
least 7 cells, `metadata['lat'] = float(header[2]) + float(header[3])/60.0`,
then `lon` from cells 4 and 5, then `elev` from cell 6.  The first failing
`float` raises; the `except` swallows it, leaving exactly the keys assigned so
far.  Header cells are not stripped by the script (Python `float` strips).
-/
def parseHeaderH (header : Row) : HMeta :=
  if header.length < 7 then HMeta.empty
  else
    match pyFloat (cellAt header 2), pyFloat (cellAt header 3) with
    | some latd, some latm =>
      let lat := latd + latm / 60
      match pyFloat (cellAt header 4), pyFloat (cellAt header 5) with
      | some lond, some lonm =>
        let lon := lond + lonm / 60
        match pyFloat (cellAt header 6) with
        | some el => ⟨some lat, some lon, some el⟩
        | none => ⟨some lat, some lon, none⟩
      | _, _ => ⟨some lat, none, none⟩
    | _, _ => HMeta.empty

/-- One stored sample: `{'GHI': _, 'DHI': _, 'Temperature': _, 'WindSpeed': _}`. -/
structure Sample where
  GHI : Rat
  DHI : Rat
  Temperature : Rat
  WindSpeed : Rat
deriving DecidableEq

/-- `{'GHI': 0.0, 'DHI': 0.0, 'Temperature': 0.0, 'WindSpeed': 0.0}`. -/
def Sample.init : Sample := ⟨0, 0, 0, 0⟩

/-- The `data` dict: hour offset from 2016-01-01 00:00 → sample. -/
abbrev DataMap := List (Nat × Sample)

def dmLookup : DataMap → Nat → Option Sample
  | [], _ => none
  | (k, v) :: rest, c => if k = c then some v else dmLookup rest c

/-- Python dict assignment: replace in place, or append a new key. -/
def dmInsert : DataMap → Nat → Sample → DataMap
  | [], k, v => [(k, v)]
  | (k', v') :: rest, k, v =>
    if k' = k then (k, v) :: rest else (k', v') :: dmInsert rest k v

/-- Cumulative days of 2016 (leap year) before a given 1-based month. -/
def daysBefore2016 : Nat → Nat
  | 1 => 0 | 2 => 31 | 3 => 60 | 4 => 91 | 5 => 121 | 6 => 152
  | 7 => 182 | 8 => 213 | 9 => 244 | 10 => 274 | 11 => 305 | 12 => 335
  | _ => 0

def daysInMonth2016 : Nat → Nat
  | 1 => 31 | 2 => 29 | 3 => 31 | 4 => 30 | 5 => 31 | 6 => 30
  | 7 => 31 | 8 => 31 | 9 => 30 | 10 => 31 | 11 => 30 | 12 => 31
  | _ => 0

/--
`pd.Timestamp(year=2016, month=month, day=day)` as an hour offset from
2016-01-01 00:00; an out-of-range month or day raises (`none`), which the
row-level `except` turns into a skipped row.
-/
def tsOf (month day : Int) : Option Nat :=
  if 1 ≤ month ∧ month ≤ 12 ∧ 1 ≤ day ∧ day ≤ (daysInMonth2016 month.toNat : Int) then
    some (24 * (daysBefore2016 month.toNat + (day.toNat - 1)))
  else none

/-- `float(x) if x != '' else 0.0` on an already-stripped cell. -/
def parseCellH (c : List Char) : Option Rat :=
  if c.isEmpty then some 0 else parseFloatChars c

/--
The fallible part of the row loop body (source lines 26-49): strip all cells,
skip rows shorter than 30 cells (`if not row or len(row) < 30: continue`),
parse `type`, `month`, `day`, `year` as `int(float(_))`, parse the 24 hour
cells `row[4:28]`, and build the base timestamp; any failure skips the row.
-/
def parseRowH2 (row : Row) : Option (Int × Nat × List Rat) :=
  if row.length < 30 then none
  else
    match parseFloatChars (cellAt row 0), parseFloatChars (cellAt row 1),
          parseFloatChars (cellAt row 2), parseFloatChars (cellAt row 3) with
    | some t0, some m0, some d0, some _y =>
      match ((row.drop 4).take 24).mapM parseCellH with
      | some vals =>
        match tsOf (pyTrunc m0) (pyTrunc d0) with
        | some base => some (pyTrunc t0, base, vals)
        | none => none
      | none => none
    | _, _, _, _ => none

def parseRowH (row : Row) : Option (Int × Nat × List Rat) :=
  parseRowH2 (row.map stripChars)

/--
The per-hour write (source lines 55-69): initialize the timestamp's dict entry
to all zeros when absent, then overwrite the channel selected by the type code
with the scaled value; unknown type codes leave the entry untouched.
Scale literals of the source: `val * 10000.0 / 3600.0` for GHI and DHI,
`val * 0.1` for temperature and wind.
-/
def updateChan (s : Sample) (t : Int) (v : Rat) : Sample :=
  if t = 1 then { s with GHI := v * 10000 / 3600 }
  else if t = 2 then { s with DHI := v * 10000 / 3600 }
  else if t = 5 then { s with Temperature := v * (1 / 10) }
  else if t = 7 then { s with WindSpeed := v * (1 / 10) }
  else s

def writeOne (m : DataMap) (t : Int) (dt : Nat) (v : Rat) : DataMap :=
  dmInsert m dt (updateChan ((dmLookup m dt).getD Sample.init) t v)

/-- `for h_idx, val in enumerate(hourly_vals)` with running hour index `h`. -/
def applyRowAux (t : Int) (base : Nat) : DataMap → Nat → List Rat → DataMap
  | m, _, [] => m
  | m, h, v :: vs => applyRowAux t base (writeOne m t (base + h) v) (h + 1) vs

def applyRow (m : DataMap) (t : Int) (base : Nat) (vals : List Rat) : DataMap :=
  applyRowAux t base m 0 vals

/-- Full body of the data-row loop: parse, then apply; failures skip the row. -/
def processHRow (m : DataMap) (row : Row) : DataMap :=
  match parseRowH row with
  | none => m
  | some (t, base, vals) => applyRow m t base vals

def processRows (rows : List Row) : DataMap :=
  rows.foldl processHRow []

/-- Geographic metadata attached to the horizontal output. -/
structure GeoMeta where
  lat : Rat
  lon : Rat
  elev : Rat
deriving DecidableEq

/-- Sort the collected `(timestamp, sample)` pairs by timestamp (ascending). -/
def insertSorted (p : Nat × Sample) : List (Nat × Sample) → List (Nat × Sample)
  | [] => [p]
  | q :: rest => if p.1 ≤ q.1 then p :: q :: rest else q :: insertSorted p rest

def sortRows (l : List (Nat × Sample)) : List (Nat × Sample) :=
  l.foldr insertSorted []

/-- The horizontal script's output frame. -/
structure HOutput where
  rows : List (Nat × Sample)
  meta : Option GeoMeta
deriving DecidableEq

/--
End of the horizontal run (source lines 74-93): an empty `data` dict prints an
error and returns without writing (`error`); otherwise the frame is the sorted
samples.  `if metadata:` is true when any key was assigned; the script then
reads `metadata['lat']`, `metadata['lon']`, `metadata['elev']`, so a partially
assigned dict raises an uncaught `KeyError` (`error`).  Keys are only ever
assigned in the order `lat`, `lon`, `elev`.
-/
def convertH1 (md : HMeta) (m : DataMap) : Except Unit HOutput :=
  if m = [] then .error ()
  else if md.lat.isSome || md.lon.isSome || md.elev.isSome then
    match md.lat, md.lon, md.elev with
    | some la, some lo, some el => .ok ⟨sortRows m, some ⟨la, lo, el⟩⟩
    | _, _, _ => .error ()
  else .ok ⟨sortRows m, none⟩

/--
The whole horizontal run.  An empty file makes `next(reader)` raise
`StopIteration`, which the header `except` swallows; the data loop then sees
no rows and the empty `data` dict triggers the error return.
-/
def convertHorizontal : List Row → Except Unit HOutput
  | [] => .error ()
  | hd :: body => convertH1 (parseHeaderH hd) (processRows body)

/-- The type codes the horizontal per-hour write recognizes. -/
def knownHTypes : List Int := [1, 2, 5, 7]

/--
Column names of the horizontal output frame: the four channel dict keys (every
stored sample has all four), `DateTime` from the index reset, and the three
metadata columns exactly when metadata was attached.
-/
def hBaseCols : List String := ["DateTime", "GHI", "DHI", "Temperature", "WindSpeed"]

def hMetaCols : List String := ["Latitude", "Longitude", "Elevation"]

def hColumnNames (o : HOutput) : List String :=
  hBaseCols ++ (if o.meta.isSome then hMetaCols else [])

/-- Column names of a completed horizontal run. -/
def hColsOf : Except Unit HOutput → Option (List String)
  | .ok o => some (hColumnNames o)
  | .error _ => none

/-- Timestamps of a completed horizontal run (empty on an aborted run). -/
def hKeys : Except Unit HOutput → List Nat
  | .ok o => o.rows.map Prod.fst
  | .error _ => []

instance decEqExcept {ε α : Type} [DecidableEq ε] [DecidableEq α] :
    DecidableEq (Except ε α) := fun x y =>
  match x, y with
  | .ok a, .ok b =>
    if h : a = b then isTrue (by rw [h]) else isFalse (fun he => by cases he; exact h rfl)
  | .error a, .error b =>
    if h : a = b then isTrue (by rw [h]) else isFalse (fun he => by cases he; exact h rfl)
  | .ok _, .error _ => isFalse (fun he => by cases he)
  | .error _, .ok _ => isFalse (fun he => by cases he)

/-! ## Helper lemmas about the vertical assembly -/

theorem padTo_length_le (n : Nat) (vals : List (Option Int)) (h : vals.length ≤ n) :
    padTo n vals = vals ++ List.replicate (n - vals.length) none := by
  unfold padTo
  by_cases hlt : vals.length < n
  · rw [if_pos hlt]
  · have he : vals.length = n := by omega
    rw [if_neg hlt, he]
    simp

theorem padTo_length_ge (n : Nat) (vals : List (Option Int)) (h : n ≤ vals.length) :
    padTo n vals = vals := by
  unfold padTo
  by_cases hlt : vals.length < n
  · omega
  · rw [if_neg hlt]

theorem length_padTo (n : Nat) (vals : List (Option Int)) :
    (padTo n vals).length = max n vals.length := by
  unfold padTo
  by_cases hlt : vals.length < n <;> simp [hlt] <;> omega

theorem get_param_length (d : DataRows) (code : String) (scale : Rat) :
    (get_param d code scale).length = 8760 := by
  unfold get_param
  simp [List.length_take, length_padTo]

theorem get_param_pad (d : DataRows) (code : String) (scale : Rat)
    (h : ((drLookup d code).getD []).length ≤ 8760) :
    get_param d code scale =
      ((drLookup d code).getD []).map (scaleOpt scale) ++
        List.replicate (8760 - ((drLookup d code).getD []).length) none := by
  unfold get_param
  rw [padTo_length_le 8760 _ h, List.take_of_length_le (by simp; omega),
    List.map_append, List.map_replicate]
  simp

theorem get_param_trunc (d : DataRows) (code : String) (scale : Rat)
    (h : 8760 ≤ ((drLookup d code).getD []).length) :
    get_param d code scale =
      (((drLookup d code).getD []).take 8760).map
        (scaleOpt scale) := by
  unfold get_param
  rw [padTo_length_ge 8760 _ h]

theorem get_param_getElem (d : DataRows) (code : String) (scale : Rat) (i : Nat)
    (hi : i < 8760) :
    (get_param d code scale)[i]? =
      some (scaleOpt scale ((((drLookup d code).getD [])[i]?).getD none)) := by
  unfold get_param padTo
  set vals := (drLookup d code).getD [] with hv
  rw [List.getElem?_map, List.getElem?_take, if_pos hi]
  by_cases hil : i < vals.length
  · have hsome : vals[i]? = some vals[i] := List.getElem?_eq_getElem hil
    by_cases hlt : vals.length < 8760
    · rw [if_pos hlt, List.getElem?_append, if_pos hil, hsome]
      simp
    · rw [if_neg hlt, hsome]
      simp
  · have hnone : vals[i]? = none := List.getElem?_eq_none (by omega)
    have hlt : vals.length < 8760 := by omega
    rw [if_pos hlt, List.getElem?_append_right (by omega), List.getElem?_replicate,
      if_pos (by omega), hnone]
    simp

/-! ## Claim C5 -/

/--
Claim C5: for every vertical-format input, each emitted channel column has
exactly 8760 values after assembly: a raw channel sequence shorter than 8760
is padded with missing values up to 8760, and one longer than 8760 is
truncated to the first 8760, regardless of how many raw lines were supplied
for that channel.
-/
theorem claim_C5 (d : DataRows) (code : String) (scale : Rat) :
    (get_param d code scale).length = 8760 ∧
    (((drLookup d code).getD []).length ≤ 8760 →
      get_param d code scale =
        ((drLookup d code).getD []).map (scaleOpt scale) ++
          List.replicate (8760 - ((drLookup d code).getD []).length) none) ∧
    (8760 ≤ ((drLookup d code).getD []).length →
      get_param d code scale =
        (((drLookup d code).getD []).take 8760).map
          (scaleOpt scale)) :=
  ⟨get_param_length d code scale,
   fun h => get_param_pad d code scale h,
   fun h => get_param_trunc d code scale h⟩

/-- A channel with a single raw line worth of data (24 values). -/
def shortRows : DataRows := [("00001", List.replicate 24 (some 100))]

/-- A channel with 8761 accumulated raw values. -/
def longRows : DataRows := [("00001", List.replicate 8761 (some 100))]

/-- Witness for C5 at a short and at an over-long channel sequence. -/
theorem claim_C5_witness :
    (get_param shortRows "00001" vIrrScale).length = 8760 ∧
    get_param shortRows "00001" vIrrScale =
      ((drLookup shortRows "00001").getD []).map
          (scaleOpt vIrrScale) ++
        List.replicate (8760 - ((drLookup shortRows "00001").getD []).length) none ∧
    get_param longRows "00001" vIrrScale =
      (((drLookup longRows "00001").getD []).take 8760).map
        (scaleOpt vIrrScale) :=
  ⟨(claim_C5 shortRows "00001" vIrrScale).1,
   (claim_C5 shortRows "00001" vIrrScale).2.1
     (by
      have h1 : drLookup shortRows "00001" = some (List.replicate 24 (some 100)) := rfl
      rw [h1, Option.getD_some, List.length_replicate]
      omega),
   (claim_C5 longRows "00001" vIrrScale).2.2
     (by
      have h1 : drLookup longRows "00001" = some (List.replicate 8761 (some 100)) := rfl
      rw [h1, Option.getD_some, List.length_replicate]
      omega)⟩

/-! ## Claim C6 -/

/--
Claim C6: in the vertical decoder, every hourly field whose 4-character value
parses to the integer 8888 decodes to a missing value and never a finite
number, for every channel scale; the sentinel is checked before scaling, so
the literal sentinel number never reaches the output.
-/
theorem claim_C6 (line : List Char) (h : Nat)
    (hp : parseIntChars (stripChars (field4 line h)) = some 8888) :
    decodeHour line h = none ∧
    (∀ scale : Rat, scaleOpt scale (decodeHour line h) = none) ∧
    (h < 24 → (hourlyValues line)[h]? = some none) := by
  have hd : decodeHour line h = none := by
    unfold decodeHour
    rw [hp]
    simp
  refine ⟨hd, fun scale => by rw [hd]; rfl, fun hlt => ?_⟩
  unfold hourlyValues
  rw [List.getElem?_map, List.getElem?_range hlt]
  simp [hd]

/-- A vertical data line carrying the sentinel `8888` in hour slot 0. -/
def c6line : List Char := ("00001 0101     8888A  10 ").toList

/-- Witness for C6: the sentinel field of `c6line` decodes to missing. -/
theorem claim_C6_witness :
    parseIntChars (stripChars (field4 c6line 0)) = some 8888 ∧
    decodeHour c6line 0 = none ∧
    scaleOpt vIrrScale (decodeHour c6line 0) = none ∧
    (hourlyValues c6line)[0]? = some none :=
  ⟨by decide,
   (claim_C6 c6line 0 (by decide)).1,
   (claim_C6 c6line 0 (by decide)).2.1 vIrrScale,
   (claim_C6 c6line 0 (by decide)).2.2 (by decide)⟩

/-! ## Claim C9 -/

/--
Claim C9: in the vertical decoder, for every accepted line (length at least
130) and every hour slot whose 4-character value field fails integer parsing,
only that single hour is recorded as missing; the remaining hour slots of the
same line are still decoded normally and appended in order.
-/
theorem claim_C9 (line : List Char) (j : Nat) (hj : j < 24)
    (hp : parseIntChars (stripChars (field4 line j)) = none) :
    (hourlyValues line).length = 24 ∧
    (hourlyValues line)[j]? = some none ∧
    (∀ k, k < 24 → (hourlyValues line)[k]? = some (decodeHour line k)) ∧
    (∀ d : DataRows, 130 ≤ line.length →
      processVLine d line = drExtend d (elemCode line) (hourlyValues line)) := by
  have hall : ∀ k, k < 24 → (hourlyValues line)[k]? = some (decodeHour line k) := by
    intro k hk
    unfold hourlyValues
    rw [List.getElem?_map, List.getElem?_range hk]
    rfl
  refine ⟨by simp [hourlyValues], ?_, hall, fun d hlen => ?_⟩
  · rw [hall j hj]
    unfold decodeHour
    rw [hp]
  · unfold processVLine
    rw [if_neg (by omega)]

/-- A 135-character vertical line whose 4th hour field is unparsable. -/
def c9line : List Char :=
  ("00001 0101     " ++ "  10   10   10 abcd " ++
    String.join (List.replicate 20 "  10 ")).toList

/-- Witness for C9: slot 3 of `c9line` is missing, slot 5 decodes normally. -/
theorem claim_C9_witness :
    parseIntChars (stripChars (field4 c9line 3)) = none ∧
    (hourlyValues c9line).length = 24 ∧
    (hourlyValues c9line)[3]? = some none ∧
    (hourlyValues c9line)[5]? = some (decodeHour c9line 5) ∧
    processVLine [] c9line = drExtend [] (elemCode c9line) (hourlyValues c9line) :=
  ⟨by decide,
   (claim_C9 c9line 3 (by decide) (by decide)).1,
   (claim_C9 c9line 3 (by decide) (by decide)).2.1,
   (claim_C9 c9line 3 (by decide) (by decide)).2.2.1 5 (by decide),
   (claim_C9 c9line 3 (by decide) (by decide)).2.2.2 [] (by decide)⟩

/-! ## Test fixtures shared by the remaining claims -/

/-- A well-formed 54-character vertical header line. -/
def vGoodHeader : List Char :=
  ("53091 TESTSTATION            34   51  135   31      15").toList

/-- A header line whose latitude field is not numeric. -/
def vBadHeader : List Char := ("XXXXX").toList

/-- A 30-cell horizontal data row: type, month, day, year, 24 hour cells,
two trailing cells. -/
def mkHRow (t mo d v : String) : Row :=
  [t.toList, mo.toList, d.toList, ("2016").toList] ++
    List.replicate 24 v.toList ++ [[], []]

/-- A horizontal header row that parses completely. -/
def goodHdr : Row :=
  [("53091").toList, ("STN").toList, ("34").toList, ("51.36").toList,
   ("135").toList, ("31.2").toList, ("15.0").toList]

/-- A horizontal header row whose longitude degree cell is not numeric:
`metadata` ends up holding only the `lat` key. -/
def partialHdr : Row :=
  [("53091").toList, ("STN").toList, ("34").toList, ("30").toList,
   ("bad").toList, ("31.2").toList, ("15.0").toList]

/-- A horizontal header row too short to be read (header parse fails whole). -/
def noMetaHdr : Row := [[('x' : Char)]]

/-- A valid GHI data row for January 1st. -/
def hRow1 : Row := mkHRow "1" "1" "1" "10"

/-! ## Claim C1 -/

/--
Claim C1 counterexample: a vertical run whose header is malformed aborts
instead of proceeding with "unknown" metadata, and a horizontal run whose
header parses only up to the latitude also aborts (uncaught `KeyError` at
metadata attachment), even though well-formed data lines follow in both.
-/
theorem claim_C1_counterexample :
    convertVertical [vBadHeader, c9line] = .error () ∧
    convertHorizontal [partialHdr, hRow1] = .error () := by
  constructor <;> decide

/--
Claim C1 (amended): header-parse failure is non-fatal only in the horizontal
decoder and only when no metadata key was assigned: there the run completes
with the metadata columns omitted (fields are absent, not "unknown") while
data lines decode normally.  A horizontal header that fails after assigning
the latitude aborts the run at metadata attachment, and in the vertical
decoder any malformed or absent header aborts the run before data decoding.
-/
theorem claim_C1_amended :
    (∀ (hd : List Char) (rest : List (List Char)), parseHeaderV hd = none →
        convertVertical (hd :: rest) = .error ()) ∧
    (∀ (hd : Row) (rest : List Row), parseHeaderH hd = HMeta.empty →
        processRows rest ≠ [] →
        convertHorizontal (hd :: rest) = .ok ⟨sortRows (processRows rest), none⟩) ∧
    (∀ (hd : Row) (rest : List Row), (parseHeaderH hd).lat.isSome →
        ((parseHeaderH hd).lon.isNone ∨ (parseHeaderH hd).elev.isNone) →
        convertHorizontal (hd :: rest) = .error ()) := by
  refine ⟨?_, ?_, ?_⟩
  · intro hd rest h
    have hcv : convertVertical (hd :: rest) =
        convertV1 (parseHeaderV hd) (buildDataRows rest) := rfl
    rw [hcv, h]
    rfl
  · intro hd rest h hne
    have hcv : convertHorizontal (hd :: rest) =
        convertH1 (parseHeaderH hd) (processRows rest) := rfl
    rw [hcv, h]
    unfold convertH1
    rw [if_neg hne]
    simp [HMeta.empty]
  · intro hd rest hlat hmiss
    have hcv : convertHorizontal (hd :: rest) =
        convertH1 (parseHeaderH hd) (processRows rest) := rfl
    rw [hcv]
    unfold convertH1
    by_cases hm : processRows rest = []
    · rw [if_pos hm]
    · rw [if_neg hm]
      obtain ⟨la, hla⟩ := Option.isSome_iff_exists.mp hlat
      rcases hmiss with hlon | helev
      · rw [Option.isNone_iff_eq_none] at hlon
        simp [hla, hlon]
      · rw [Option.isNone_iff_eq_none] at helev
        rcases hlon2 : (parseHeaderH hd).lon with _ | lo
        · simp [hla, hlon2]
        · simp [hla, hlon2, helev]

/-- Witness for the amended C1 at concrete inputs exercising all three arms. -/
theorem claim_C1_amended_witness :
    convertVertical [vBadHeader] = .error () ∧
    convertHorizontal (noMetaHdr :: [hRow1]) =
      .ok ⟨sortRows (processRows [hRow1]), none⟩ ∧
    convertHorizontal [partialHdr] = .error () :=
  ⟨claim_C1_amended.1 vBadHeader [] (by decide),
   claim_C1_amended.2.1 noMetaHdr [hRow1] (by decide) (by decide),
   claim_C1_amended.2.2 partialHdr [] (by decide) (Or.inl (by decide))⟩

/-! ## Claim C2 -/

theorem drLookup_drExtend (d : DataRows) (k : String) (vs : List (Option Int))
    (c : String) :
    drLookup (drExtend d k vs) c =
      if k = c then some ((drLookup d k).getD [] ++ vs) else drLookup d c := by
  induction d with
  | nil => simp [drExtend, drLookup]
  | cons p rest ih =>
    obtain ⟨a, avs⟩ := p
    by_cases hak : a = k
    · subst hak
      by_cases hac : a = c
      · subst hac
        simp [drExtend, drLookup]
      · simp [drExtend, drLookup, hac]
    · by_cases hac : a = c
      · subst hac
        have hkc : ¬(k = a) := fun hh => hak hh.symm
        simp [drExtend, drLookup, hak, hkc]
      · simp [drExtend, drLookup, hak, hac, ih]

theorem drLookup_processVLine (d : DataRows) (line : List Char) (c : String)
    (hc : c ≠ elemCode line) :
    drLookup (processVLine d line) c = drLookup d c := by
  unfold processVLine
  by_cases hlen : line.length < 130
  · rw [if_pos hlen]
  · rw [if_neg hlen, drLookup_drExtend, if_neg (Ne.symm hc)]

theorem fold_agree (ls : List (List Char)) (d1 d2 : DataRows) (k : String)
    (h : ∀ c, c ≠ k → drLookup d1 c = drLookup d2 c) :
    ∀ c, c ≠ k → drLookup (ls.foldl processVLine d1) c =
      drLookup (ls.foldl processVLine d2) c := by
  induction ls generalizing d1 d2 with
  | nil => exact h
  | cons l ls ih =>
    rw [List.foldl_cons, List.foldl_cons]
    apply ih
    intro c hc
    unfold processVLine
    by_cases hlen : l.length < 130
    · rw [if_pos hlen, if_pos hlen]
      exact h c hc
    · rw [if_neg hlen, if_neg hlen, drLookup_drExtend, drLookup_drExtend]
      by_cases he : elemCode l = c
      · rw [if_pos he, if_pos he]
        have hek : elemCode l ≠ k := fun hh => hc (by rw [← he, hh])
        rw [h _ hek]
      · rw [if_neg he, if_neg he]
        exact h c hc

/-- Inserting one line with an element code the frame never reads leaves every
emitted column of the vertical run unchanged: its data is dropped. -/
theorem vertical_drop_unknown (hdr line : List Char) (pre post : List (List Char))
    (hunk : elemCode line ∉ knownVCodes) :
    convertVertical (hdr :: (pre ++ line :: post)) =
      convertVertical (hdr :: (pre ++ post)) := by
  have key : ∀ c : String, c ≠ elemCode line →
      drLookup (buildDataRows (pre ++ line :: post)) c =
        drLookup (buildDataRows (pre ++ post)) c := by
    intro c hc
    unfold buildDataRows
    rw [List.foldl_append, List.foldl_append, List.foldl_cons]
    exact fold_agree post _ _ (elemCode line)
      (fun c2 hc2 => drLookup_processVLine _ _ _ hc2) c hc
  have gp : ∀ (c : String) (s : Rat), c ≠ elemCode line →
      get_param (buildDataRows (pre ++ line :: post)) c s =
        get_param (buildDataRows (pre ++ post)) c s := by
    intro c s hc
    unfold get_param
    rw [key c hc]
  have hne : ∀ c ∈ knownVCodes, c ≠ elemCode line :=
    fun c hcmem hce => hunk (hce ▸ hcmem)
  have h1 : convertVertical (hdr :: (pre ++ line :: post)) =
      convertV1 (parseHeaderV hdr) (buildDataRows (pre ++ line :: post)) := rfl
  have h2 : convertVertical (hdr :: (pre ++ post)) =
      convertV1 (parseHeaderV hdr) (buildDataRows (pre ++ post)) := rfl
  rw [h1, h2]
  unfold convertV1
  cases parseHeaderV hdr with
  | none => rfl
  | some hd =>
    rw [gp "00001" vIrrScale (hne "00001" (by decide)),
      gp "00002" vIrrScale (hne "00002" (by decide)),
      gp "00003" vIrrScale (hne "00003" (by decide)),
      gp "00005" vTempScale (hne "00005" (by decide)),
      gp "00007" vWindScale (hne "00007" (by decide))]

theorem updateChan_unknown (s : Sample) (t : Int) (v : Rat)
    (h : t ∉ knownHTypes) : updateChan s t v = s := by
  unfold knownHTypes at h
  simp only [List.mem_cons, List.mem_singleton, not_or, List.not_mem_nil] at h
  unfold updateChan
  rw [if_neg h.1, if_neg h.2.1, if_neg h.2.2.1, if_neg h.2.2.2.1]

theorem applyRowAux_unknown (t : Int) (h : t ∉ knownHTypes) (base : Nat) :
    ∀ (vals vals2 : List Rat) (m : DataMap) (hh : Nat),
      vals.length = vals2.length →
      applyRowAux t base m hh vals = applyRowAux t base m hh vals2 := by
  intro vals
  induction vals with
  | nil =>
    intro vals2 m hh hlen
    cases vals2 with
    | nil => rfl
    | cons v2 vs2 => simp at hlen
  | cons v vs ih =>
    intro vals2 m hh hlen
    cases vals2 with
    | nil => simp at hlen
    | cons v2 vs2 =>
      unfold applyRowAux writeOne
      rw [updateChan_unknown _ _ _ h, updateChan_unknown _ _ _ h]
      exact ih vs2 _ _ (by simpa using hlen)

/-- A 135-character well-formed line with unregistered element code 00009. -/
def unkLine : List Char :=
  ("00009 0101     " ++ String.join (List.replicate 24 "  10 ")).toList

/--
Claim C2 counterexample: a well-formed vertical line with element code 00009
(24 parsable values, length over 130) leaves the completed run's output
identical to the run without that line, so its decoded values appear nowhere
in the final output — there is no raw/unclassified channel.  Likewise the
horizontal per-row application for an unknown type code 3 produces the same
map for different hourly values — the values are discarded.
-/
theorem claim_C2_counterexample :
    convertVertical [vGoodHeader, unkLine] = convertVertical [vGoodHeader] ∧
    130 ≤ unkLine.length ∧
    elemCode unkLine = "00009" ∧
    hourlyValues unkLine = List.replicate 24 (some 10) ∧
    applyRow [] 3 0 [5] = applyRow [] 3 0 [9] := by
  refine ⟨?_, by decide, by decide, by decide, ?_⟩
  · exact vertical_drop_unknown vGoodHeader unkLine [] [] (by decide)
  · exact applyRowAux_unknown 3 (by decide) 0 [5] [9] [] 0 rfl

/--
Claim C2 (amended): data from lines or rows with unregistered codes is not
preserved in the output.  The vertical decoder accumulates unknown element
codes in its internal map but the emitted frame reads only the five known
codes, so removing an unknown-code line from anywhere in the input leaves the
completed output unchanged; the horizontal decoder discards the values of an
unknown-type row entirely (the row only default-initializes its timestamps).
-/
theorem claim_C2_amended :
    (∀ (hdr line : List Char) (pre post : List (List Char)),
        elemCode line ∉ knownVCodes →
        convertVertical (hdr :: (pre ++ line :: post)) =
          convertVertical (hdr :: (pre ++ post))) ∧
    (∀ (t : Int) (m : DataMap) (base : Nat) (vals vals2 : List Rat),
        t ∉ knownHTypes → vals.length = vals2.length →
        applyRow m t base vals = applyRow m t base vals2) :=
  ⟨fun hdr line pre post h => vertical_drop_unknown hdr line pre post h,
   fun t m base vals vals2 ht hlen => applyRowAux_unknown t ht base vals vals2 m 0 hlen⟩

/-- Witness for the amended C2 at a concrete unknown code and type. -/
theorem claim_C2_amended_witness :
    convertVertical [vGoodHeader, c9line, unkLine] =
      convertVertical [vGoodHeader, c9line] ∧
    applyRow [(0, Sample.init)] 9 0 [5, 6] = applyRow [(0, Sample.init)] 9 0 [7, 8] :=
  ⟨claim_C2_amended.1 vGoodHeader unkLine [c9line] [] (by decide),
   claim_C2_amended.2 9 [(0, Sample.init)] 0 [5, 6] [7, 8] (by decide) rfl⟩

/-! ## Claim C3 -/

theorem insertSorted_perm (p : Nat × Sample) (l : List (Nat × Sample)) :
    List.Perm (insertSorted p l) (p :: l) := by
  induction l with
  | nil => exact List.Perm.refl _
  | cons q rest ih =>
    unfold insertSorted
    by_cases h : p.1 ≤ q.1
    · rw [if_pos h]
    · rw [if_neg h]
      exact List.Perm.trans (List.Perm.cons q ih) (List.Perm.swap p q rest)

theorem sortRows_perm (l : List (Nat × Sample)) : List.Perm (sortRows l) l := by
  induction l with
  | nil => exact List.Perm.refl _
  | cons p rest ih =>
    exact List.Perm.trans (insertSorted_perm p (sortRows rest)) (List.Perm.cons p ih)

theorem insertSorted_sorted (p : Nat × Sample) (l : List (Nat × Sample))
    (hl : List.Pairwise (fun a b => a.1 ≤ b.1) l) :
    List.Pairwise (fun a b => a.1 ≤ b.1) (insertSorted p l) := by
  induction l with
  | nil => simp [insertSorted]
  | cons q rest ih =>
    obtain ⟨hq, hrest⟩ := List.pairwise_cons.mp hl
    unfold insertSorted
    by_cases h : p.1 ≤ q.1
    · rw [if_pos h]
      refine List.Pairwise.cons ?_ hl
      intro x hx
      rcases List.mem_cons.mp hx with rfl | hxr
      · exact h
      · exact h.trans (hq x hxr)
    · rw [if_neg h]
      refine List.Pairwise.cons ?_ (ih hrest)
      intro x hx
      have hxm := (insertSorted_perm p rest).mem_iff.mp hx
      rcases List.mem_cons.mp hxm with rfl | hxr
      · exact Nat.le_of_lt (Nat.lt_of_not_le h)
      · exact hq x hxr

theorem sortRows_sorted (l : List (Nat × Sample)) :
    List.Pairwise (fun a b => a.1 ≤ b.1) (sortRows l) := by
  induction l with
  | nil => simp [sortRows]
  | cons p rest ih => exact insertSorted_sorted p (sortRows rest) ih

theorem mem_keys_dmInsert (m : DataMap) (k : Nat) (v : Sample) (a : Nat) :
    a ∈ (dmInsert m k v).map Prod.fst ↔ a = k ∨ a ∈ m.map Prod.fst := by
  induction m with
  | nil => simp [dmInsert]
  | cons p rest ih =>
    obtain ⟨k2, v2⟩ := p
    unfold dmInsert
    by_cases h : k2 = k
    · subst h
      rw [if_pos rfl]
      simp only [List.map_cons, List.mem_cons]
      tauto
    · rw [if_neg h]
      simp only [List.map_cons, List.mem_cons, ih]
      tauto

theorem nodup_keys_dmInsert (m : DataMap) (k : Nat) (v : Sample)
    (hnd : (m.map Prod.fst).Nodup) : ((dmInsert m k v).map Prod.fst).Nodup := by
  induction m with
  | nil => simp [dmInsert]
  | cons p rest ih =>
    obtain ⟨k2, v2⟩ := p
    simp only [List.map_cons, List.nodup_cons] at hnd
    unfold dmInsert
    by_cases h : k2 = k
    · subst h
      rw [if_pos rfl]
      simp only [List.map_cons, List.nodup_cons]
      exact ⟨hnd.1, hnd.2⟩
    · rw [if_neg h]
      simp only [List.map_cons, List.nodup_cons]
      refine ⟨?_, ih hnd.2⟩
      intro hmem
      rcases (mem_keys_dmInsert rest k v k2).mp hmem with rfl | hr
      · exact h rfl
      · exact hnd.1 hr

theorem nodup_keys_applyRowAux (t : Int) (base : Nat) :
    ∀ (vals : List Rat) (m : DataMap) (hh : Nat),
      (m.map Prod.fst).Nodup → ((applyRowAux t base m hh vals).map Prod.fst).Nodup := by
  intro vals
  induction vals with
  | nil => intro m hh hnd; exact hnd
  | cons v vs ih =>
    intro m hh hnd
    exact ih _ _ (nodup_keys_dmInsert _ _ _ hnd)

theorem nodup_keys_processRows (rows : List Row) :
    ((processRows rows).map Prod.fst).Nodup := by
  unfold processRows
  have key : ∀ (rs : List Row) (m : DataMap), (m.map Prod.fst).Nodup →
      ((rs.foldl processHRow m).map Prod.fst).Nodup := by
    intro rs
    induction rs with
    | nil => intro m hnd; exact hnd
    | cons r rs ih =>
      intro m hnd
      rw [List.foldl_cons]
      apply ih
      unfold processHRow
      cases parseRowH r with
      | none => exact hnd
      | some x => exact nodup_keys_applyRowAux _ _ _ _ _ hnd
  exact key rows [] (by simp)

theorem sorted_keys_strict (m : DataMap) (hnd : (m.map Prod.fst).Nodup) :
    List.Pairwise (· < ·) ((sortRows m).map Prod.fst) := by
  have hle := sortRows_sorted m
  have hperm : List.Perm ((sortRows m).map Prod.fst) (m.map Prod.fst) :=
    (sortRows_perm m).map Prod.fst
  have hnd2 : ((sortRows m).map Prod.fst).Nodup := hperm.nodup_iff.mpr hnd
  have hne : List.Pairwise (fun a b : Nat × Sample => ¬a.1 = b.1) (sortRows m) :=
    List.pairwise_map.mp hnd2
  rw [List.pairwise_map]
  exact (hle.and hne).imp (fun h => lt_of_le_of_ne h.1 h.2)

theorem hKeys_convertH1 (md : HMeta) (m : DataMap) :
    hKeys (convertH1 md m) = [] ∨
      hKeys (convertH1 md m) = (sortRows m).map Prod.fst := by
  unfold convertH1
  by_cases hm : m = []
  · rw [if_pos hm]
    exact Or.inl rfl
  · rw [if_neg hm]
    by_cases hmd : (md.lat.isSome || md.lon.isSome || md.elev.isSome) = true
    · rw [if_pos hmd]
      cases md.lat with
      | none => exact Or.inl rfl
      | some la =>
        cases md.lon with
        | none => exact Or.inl rfl
        | some lo =>
          cases md.elev with
          | none => exact Or.inl rfl
          | some el => exact Or.inr rfl
    · rw [if_neg hmd]
      exact Or.inr rfl

/-- A horizontal input covering January 1st and January 3rd but not the 2nd. -/
def c3gapRows : List Row := [noMetaHdr, mkHRow "1" "1" "1" "10", mkHRow "1" "1" "3" "10"]

/--
Claim C3 counterexample: on an input with rows for January 1st and
January 3rd only, the completed horizontal run emits 48 samples whose 24th
and 25th timestamps are hours 23 and 48 — a 25-hour jump.  The missing hours
of January 2nd are never materialized, so adjacent samples do not always
differ by one hour.
-/
theorem claim_C3_counterexample :
    (hKeys (convertHorizontal c3gapRows)).length = 48 ∧
    (hKeys (convertHorizontal c3gapRows))[23]? = some 23 ∧
    (hKeys (convertHorizontal c3gapRows))[24]? = some 48 := by
  exact ⟨by decide, by decide, by decide⟩

/--
Claim C3 (amended): after collecting the timestamp→channel→value map, the
horizontal decoder emits the samples with timestamps sorted strictly
ascending — no duplicates — but it does not materialize missing hours:
gaps in the covered span remain in the emitted series.
-/
theorem claim_C3_amended (rows : List Row) :
    List.Pairwise (· < ·) (hKeys (convertHorizontal rows)) ∧
    (hKeys (convertHorizontal rows)).Nodup := by
  have main : List.Pairwise (· < ·) (hKeys (convertHorizontal rows)) := by
    cases rows with
    | nil => simp [convertHorizontal, hKeys]
    | cons hd body =>
      have hcv : convertHorizontal (hd :: body) =
          convertH1 (parseHeaderH hd) (processRows body) := rfl
      rw [hcv]
      rcases hKeys_convertH1 (parseHeaderH hd) (processRows body) with h | h
      · rw [h]
        exact List.Pairwise.nil
      · rw [h]
        exact sorted_keys_strict _ (nodup_keys_processRows body)
  exact ⟨main, main.imp (fun h => Nat.ne_of_lt h)⟩

/-! ## Claim C4 -/

/--
Claim C4 counterexample: a completed horizontal run with fully parsed
metadata emits the columns DateTime, GHI, DHI, Temperature, WindSpeed,
Latitude, Longitude, Elevation — the canonical column DNI_horiz is absent —
and a completed run without metadata omits the metadata columns too, so the
horizontal decoder never emits the canonical column set of the vertical one.
-/
theorem claim_C4_counterexample :
    hColsOf (convertHorizontal [goodHdr, hRow1]) = some (hBaseCols ++ hMetaCols) ∧
    hColsOf (convertHorizontal [noMetaHdr, hRow1]) = some hBaseCols ∧
    ("DNI_horiz" ∈ vColumnNames) ∧
    ("DNI_horiz" ∉ hBaseCols ++ hMetaCols) ∧
    hBaseCols ++ hMetaCols ≠ vColumnNames := by
  refine ⟨by decide, by decide, by decide, by decide, by decide⟩

/--
Claim C4 (amended): the vertical decoder emits exactly the canonical nine
columns with the parsed station metadata attached as constant columns (its
metadata triple always equals the parsed header's).  The horizontal decoder
emits DateTime, GHI, DHI, Temperature, WindSpeed — never DNI_horiz — and
appends Latitude, Longitude, Elevation only when the header parsed fully;
after a failed header the metadata columns are absent.
-/
theorem claim_C4_amended :
    (∀ (hd : List Char) (rest : List (List Char)),
        vMetaOf (convertVertical (hd :: rest)) =
          (parseHeaderV hd).map (fun m => (m.lat, m.lon, m.elev))) ∧
    (∀ rows : List Row,
        hColsOf (convertHorizontal rows) = none ∨
        hColsOf (convertHorizontal rows) = some hBaseCols ∨
        hColsOf (convertHorizontal rows) = some (hBaseCols ++ hMetaCols)) ∧
    ("DNI_horiz" ∈ vColumnNames) ∧
    ("DNI_horiz" ∉ hBaseCols ++ hMetaCols) := by
  refine ⟨?_, ?_, by decide, by decide⟩
  · intro hd rest
    have hcv : convertVertical (hd :: rest) =
        convertV1 (parseHeaderV hd) (buildDataRows rest) := rfl
    rw [hcv]
    cases parseHeaderV hd with
    | none => rfl
    | some m => rfl
  · intro rows
    cases rows with
    | nil => exact Or.inl rfl
    | cons hd body =>
      have hcv : convertHorizontal (hd :: body) =
          convertH1 (parseHeaderH hd) (processRows body) := rfl
      rw [hcv]
      unfold convertH1
      by_cases hm : processRows body = []
      · rw [if_pos hm]
        exact Or.inl rfl
      · rw [if_neg hm]
        by_cases hmd : ((parseHeaderH hd).lat.isSome || (parseHeaderH hd).lon.isSome ||
            (parseHeaderH hd).elev.isSome) = true
        · rw [if_pos hmd]
          cases (parseHeaderH hd).lat with
          | none => exact Or.inl rfl
          | some la =>
            cases (parseHeaderH hd).lon with
            | none => exact Or.inl rfl
            | some lo =>
              cases (parseHeaderH hd).elev with
              | none => exact Or.inl rfl
              | some el =>
                refine Or.inr (Or.inr ?_)
                simp [hColsOf, hColumnNames]
        · rw [if_neg hmd]
          refine Or.inr (Or.inl ?_)
          simp [hColsOf, hColumnNames]

/-! ## Claim C7 -/

/--
Claim C7 counterexample: raw irradiance value 100 decodes in the vertical
pipeline to 100 × 2.7778 = 277.78 W/m², which is neither the claimed exact
100 × 0.01 × 1e6/3600 = 277.77… nor the horizontal decoder's value
100 × 10000/3600 = 2500/9 for the same raw value: the decoders' irradiance
scale factors are not equivalent and the vertical one is not the exact form.
-/
theorem claim_C7_counterexample :
    (get_param [("00001", [some (100 : Int)])] "00001" vIrrScale)[0]? =
      some (some (13889 / 50)) ∧
    dmLookup (writeOne [] 1 0 100) 0 =
      some { GHI := 2500 / 9, DHI := 0, Temperature := 0, WindSpeed := 0 } ∧
    ((13889 : Rat) / 50 ≠ (100 : Rat) * (1 / 100) * (1000000 / 3600)) ∧
    ((13889 : Rat) / 50 ≠ (2500 : Rat) / 9) := by
  refine ⟨?_, ?_, by norm_num, by norm_num⟩
  · rw [get_param_getElem [("00001", [some (100 : Int)])] "00001" vIrrScale 0 (by norm_num)]
    have h1 : drLookup [("00001", [some (100 : Int)])] "00001" = some [some 100] := rfl
    rw [h1]
    simp [scaleOpt, vIrrScale]
    norm_num
  · have h0 : dmLookup ([] : DataMap) 0 = none := rfl
    unfold writeOne
    rw [h0]
    have h2 : dmLookup (dmInsert [] 0 (updateChan (Option.getD none Sample.init) 1 100)) 0 =
        some (updateChan Sample.init 1 100) := rfl
    rw [h2]
    unfold updateChan
    norm_num
    simp [Sample.init]

/--
Claim C7 (amended): for a non-sentinel raw value r, the vertical decoder
scales irradiance channels by the rounded literal 2.7778 = 27778/10000 (raw
100 gives exactly 277.78), not by the exact 0.01 × 1e6/3600 = 25/9-per-0.01
form; the horizontal decoder scales irradiance by the exact 10000/3600.  The
two irradiance factors therefore differ.  Temperature and wind scale by 0.1
in both decoders (raw 250 gives 25.0, raw 30 gives 3.0).
-/
theorem claim_C7_amended :
    (∀ r : Int, scaleOpt vIrrScale (some r) = some ((r : Rat) * (27778 / 10000))) ∧
    (∀ r : Int, scaleOpt vTempScale (some r) = some ((r : Rat) * (1 / 10))) ∧
    (∀ r : Int, scaleOpt vWindScale (some r) = some ((r : Rat) * (1 / 10))) ∧
    (∀ (v : Rat) (s : Sample),
        (updateChan s 1 v).GHI = v * ((1 / 100) * (1000000 / 3600)) ∧
        (updateChan s 2 v).DHI = v * ((1 / 100) * (1000000 / 3600)) ∧
        (updateChan s 5 v).Temperature = v * (1 / 10) ∧
        (updateChan s 7 v).WindSpeed = v * (1 / 10)) ∧
    vIrrScale ≠ (1 / 100 : Rat) * (1000000 / 3600) ∧
    (100 : Rat) * vIrrScale = 27778 / 100 ∧
    scaleOpt vTempScale (some 250) = some 25 ∧
    scaleOpt vWindScale (some 30) = some 3 := by
  refine ⟨fun r => ?_, fun r => ?_, fun r => ?_, fun v s => ?_, by
    norm_num [vIrrScale], by norm_num [vIrrScale], by
    simp [scaleOpt, vTempScale]; norm_num, by
    simp [scaleOpt, vWindScale]; norm_num⟩
  · simp [scaleOpt, vIrrScale]
  · simp [scaleOpt, vTempScale]
  · simp [scaleOpt, vWindScale]
  · unfold updateChan
    norm_num
    ring

/-! ## Claim C8 -/

/-- A 28-cell horizontal row: type, month, day, year, 24 hour cells. -/
def row28 : Row :=
  [("1").toList, ("1").toList, ("1").toList, ("2016").toList] ++
    List.replicate 24 ("10").toList

/--
Claim C8 counterexample: a well-formed 28-column data row (type, month, day,
year, 24 hour values) is skipped by the horizontal decoder — the code demands
at least 30 columns, not 28 — so a file holding only such rows aborts with
"no data records", while the same row padded to 30 columns is processed.
-/
theorem claim_C8_counterexample :
    row28.length = 28 ∧
    processHRow [] row28 = [] ∧
    convertHorizontal [noMetaHdr, row28] = .error () ∧
    hRow1.length = 30 ∧
    processHRow [] hRow1 ≠ [] := by
  refine ⟨by decide, by decide, by decide, by decide, by decide⟩

/--
Claim C8 (amended): the horizontal decoder skips exactly the data rows with
fewer than 30 columns (28- and 29-column rows included, however well-formed)
and decodes rows with at least 30 columns, taking the hour values from
columns 4..27; every row that parses has at least 30 columns.
-/
theorem claim_C8_amended :
    (∀ (m : DataMap) (row : Row), row.length < 30 → processHRow m row = m) ∧
    (∀ row : Row, (parseRowH row).isSome → 30 ≤ row.length) ∧
    processHRow [] hRow1 ≠ [] := by
  have hskip : ∀ row : Row, row.length < 30 → parseRowH row = none := by
    intro row h
    unfold parseRowH parseRowH2
    rw [if_pos (by rw [List.length_map]; exact h)]
  refine ⟨fun m row h => ?_, fun row h => ?_, by decide⟩
  · unfold processHRow
    rw [hskip row h]
  · by_cases hlen : row.length < 30
    · rw [hskip row hlen] at h
      simp at h
    · omega

/-- Witness for the amended C8: a 1-cell row is skipped; `hRow1` parses. -/
theorem claim_C8_amended_witness :
    processHRow [(5, Sample.init)] noMetaHdr = [(5, Sample.init)] ∧
    30 ≤ hRow1.length :=
  ⟨claim_C8_amended.1 [(5, Sample.init)] noMetaHdr (by decide),
   claim_C8_amended.2.1 hRow1 (by decide)⟩

/-! ## Claim C10 -/

theorem dmLookup_dmInsert (m : DataMap) (k : Nat) (v : Sample) (c : Nat) :
    dmLookup (dmInsert m k v) c = if k = c then some v else dmLookup m c := by
  induction m with
  | nil => simp [dmInsert, dmLookup]
  | cons p rest ih =>
    obtain ⟨k2, v2⟩ := p
    unfold dmInsert
    by_cases h : k2 = k
    · subst h
      rw [if_pos rfl]
      unfold dmLookup
      by_cases hc : k2 = c <;> simp [hc]
    · rw [if_neg h]
      unfold dmLookup
      by_cases hc : k2 = c
      · subst hc
        rw [if_neg (Ne.symm h)]
        simp
      · rw [if_neg hc, if_neg hc, ih]

/-- The per-hour loop never touches timestamps outside its hour range. -/
theorem applyRowAux_lookup_out (t : Int) (base : Nat) :
    ∀ (vals : List Rat) (m : DataMap) (hh dt : Nat),
      (dt < base + hh ∨ base + hh + vals.length ≤ dt) →
      dmLookup (applyRowAux t base m hh vals) dt = dmLookup m dt := by
  intro vals
  induction vals with
  | nil => intro m hh dt h; rfl
  | cons v vs ih =>
    intro m hh dt h
    have hne : base + hh ≠ dt := by
      simp only [List.length_cons] at h
      omega
    unfold applyRowAux
    rw [ih _ _ _ (by simp only [List.length_cons] at h ⊢; omega)]
    unfold writeOne
    rw [dmLookup_dmInsert, if_neg hne]

/-- A projection that the row type never writes is preserved at every
timestamp (an absent entry counts as the all-zero initial sample). -/
theorem applyRowAux_proj_keep (proj : Sample → Rat) (t : Int) (base : Nat)
    (hkeep : ∀ (s : Sample) (v : Rat), proj (updateChan s t v) = proj s) :
    ∀ (vals : List Rat) (m : DataMap) (hh dt : Nat),
      proj ((dmLookup (applyRowAux t base m hh vals) dt).getD Sample.init) =
        proj ((dmLookup m dt).getD Sample.init) := by
  intro vals
  induction vals with
  | nil => intro m hh dt; rfl
  | cons v vs ih =>
    intro m hh dt
    unfold applyRowAux
    rw [ih]
    unfold writeOne
    rw [dmLookup_dmInsert]
    by_cases h : base + hh = dt
    · rw [if_pos h]
      subst h
      rw [Option.getD_some, hkeep]
    · rw [if_neg h]

/-- A row of the horizontal input writes channel type `tc` at timestamp `dt`. -/
def chanWrites (tc : Int) (row : Row) (dt : Nat) : Prop :=
  ∃ base vals, parseRowH row = some (tc, base, vals) ∧
    base ≤ dt ∧ dt < base + vals.length

theorem processRows_default (proj : Sample → Rat) (tc : Int)
    (hupd : ∀ (s : Sample) (t : Int) (v : Rat), t ≠ tc →
      proj (updateChan s t v) = proj s)
    (rows : List Row) (dt : Nat)
    (hno : ∀ row ∈ rows, ¬ chanWrites tc row dt) :
    proj ((dmLookup (processRows rows) dt).getD Sample.init) = proj Sample.init := by
  unfold processRows
  have key : ∀ (rs : List Row) (m : DataMap),
      (∀ row ∈ rs, ¬ chanWrites tc row dt) →
      proj ((dmLookup (rs.foldl processHRow m) dt).getD Sample.init) =
        proj ((dmLookup m dt).getD Sample.init) := by
    intro rs
    induction rs with
    | nil => intro m _; rfl
    | cons r rs ih =>
      intro m hno2
      rw [List.foldl_cons, ih _ (fun row hmem => hno2 row (List.mem_cons_of_mem r hmem))]
      unfold processHRow
      cases hp : parseRowH r with
      | none => rfl
      | some x =>
        obtain ⟨t, base, vals⟩ := x
        by_cases ht : t = tc
        · subst ht
          have hout : dt < base + 0 ∨ base + 0 + vals.length ≤ dt := by
            have hnw := hno2 r (List.mem_cons_self r rs)
            unfold chanWrites at hnw
            push_neg at hnw
            have := hnw base vals hp
            omega
          unfold applyRow
          rw [applyRowAux_lookup_out t base vals m 0 dt hout]
        · unfold applyRow
          rw [applyRowAux_proj_keep proj t base (fun s v => hupd s t v ht) vals m 0 dt]
  rw [key rows [] hno]
  rfl

theorem updateChan_GHI_keep (s : Sample) (t : Int) (v : Rat) (h : t ≠ 1) :
    (updateChan s t v).GHI = s.GHI := by
  unfold updateChan
  rw [if_neg h]
  by_cases h2 : t = 2
  · rw [if_pos h2]
  · rw [if_neg h2]
    by_cases h5 : t = 5
    · rw [if_pos h5]
    · rw [if_neg h5]
      by_cases h7 : t = 7
      · rw [if_pos h7]
      · rw [if_neg h7]

theorem updateChan_DHI_keep (s : Sample) (t : Int) (v : Rat) (h : t ≠ 2) :
    (updateChan s t v).DHI = s.DHI := by
  unfold updateChan
  by_cases h1 : t = 1
  · rw [if_pos h1]
  · rw [if_neg h1, if_neg h]
    by_cases h5 : t = 5
    · rw [if_pos h5]
    · rw [if_neg h5]
      by_cases h7 : t = 7
      · rw [if_pos h7]
      · rw [if_neg h7]

theorem updateChan_Temperature_keep (s : Sample) (t : Int) (v : Rat) (h : t ≠ 5) :
    (updateChan s t v).Temperature = s.Temperature := by
  unfold updateChan
  by_cases h1 : t = 1
  · rw [if_pos h1]
  · rw [if_neg h1]
    by_cases h2 : t = 2
    · rw [if_pos h2]
    · rw [if_neg h2, if_neg h]
      by_cases h7 : t = 7
      · rw [if_pos h7]
      · rw [if_neg h7]

theorem updateChan_WindSpeed_keep (s : Sample) (t : Int) (v : Rat) (h : t ≠ 7) :
    (updateChan s t v).WindSpeed = s.WindSpeed := by
  unfold updateChan
  by_cases h1 : t = 1
  · rw [if_pos h1]
  · rw [if_neg h1]
    by_cases h2 : t = 2
    · rw [if_pos h2]
    · rw [if_neg h2]
      by_cases h5 : t = 5
      · rw [if_pos h5]
      · rw [if_neg h5, if_neg h]

/--
Claim C10: in the horizontal decoder, the first row that touches a timestamp
initializes all four channels (GHI, DHI, Temperature, WindSpeed) to 0.0; a
later row for the same timestamp overwrites only the channel named by its
type code and keeps the other three; consequently every emitted sample
carries a value for all four channels, and a channel with no source row
covering that hour reports 0.0, never a missing marker.
-/
theorem claim_C10 :
    (∀ (m : DataMap) (t : Int) (dt : Nat) (v : Rat), dmLookup m dt = none →
        dmLookup (writeOne m t dt v) dt = some (updateChan Sample.init t v)) ∧
    (∀ (m : DataMap) (t : Int) (dt : Nat) (v : Rat) (s : Sample),
        dmLookup m dt = some s →
        dmLookup (writeOne m t dt v) dt = some (updateChan s t v)) ∧
    (∀ (s : Sample) (t : Int) (v : Rat),
        (t ≠ 1 → (updateChan s t v).GHI = s.GHI) ∧
        (t ≠ 2 → (updateChan s t v).DHI = s.DHI) ∧
        (t ≠ 5 → (updateChan s t v).Temperature = s.Temperature) ∧
        (t ≠ 7 → (updateChan s t v).WindSpeed = s.WindSpeed)) ∧
    (∀ (rows : List Row) (dt : Nat),
        ((∀ row ∈ rows, ¬ chanWrites 1 row dt) →
            ((dmLookup (processRows rows) dt).getD Sample.init).GHI = 0) ∧
        ((∀ row ∈ rows, ¬ chanWrites 2 row dt) →
            ((dmLookup (processRows rows) dt).getD Sample.init).DHI = 0) ∧
        ((∀ row ∈ rows, ¬ chanWrites 5 row dt) →
            ((dmLookup (processRows rows) dt).getD Sample.init).Temperature = 0) ∧
        ((∀ row ∈ rows, ¬ chanWrites 7 row dt) →
            ((dmLookup (processRows rows) dt).getD Sample.init).WindSpeed = 0)) := by
  refine ⟨fun m t dt v h => ?_, fun m t dt v s h => ?_,
    fun s t v => ⟨updateChan_GHI_keep s t v, updateChan_DHI_keep s t v,
      updateChan_Temperature_keep s t v, updateChan_WindSpeed_keep s t v⟩,
    fun rows dt => ⟨fun hno => ?_, fun hno => ?_, fun hno => ?_, fun hno => ?_⟩⟩
  · unfold writeOne
    rw [h, dmLookup_dmInsert, if_pos rfl]
    rfl
  · unfold writeOne
    rw [h, dmLookup_dmInsert, if_pos rfl]
    rfl
  · exact processRows_default Sample.GHI 1
      (fun s t v ht => updateChan_GHI_keep s t v ht) rows dt hno
  · exact processRows_default Sample.DHI 2
      (fun s t v ht => updateChan_DHI_keep s t v ht) rows dt hno
  · exact processRows_default Sample.Temperature 5
      (fun s t v ht => updateChan_Temperature_keep s t v ht) rows dt hno
  · exact processRows_default Sample.WindSpeed 7
      (fun s t v ht => updateChan_WindSpeed_keep s t v ht) rows dt hno

/-- Witness for C10: first touch initializes, overwrite keeps others, and an
uncovered timestamp reports 0 for every channel. -/
theorem claim_C10_witness :
    dmLookup (writeOne [] 1 0 5) 0 = some (updateChan Sample.init 1 5) ∧
    dmLookup (writeOne [(0, Sample.init)] 5 0 3) 0 =
      some (updateChan Sample.init 5 3) ∧
    (updateChan Sample.init 5 3).GHI = Sample.init.GHI ∧
    ((dmLookup (processRows [hRow1]) 0).getD Sample.init).Temperature = 0 :=
  ⟨claim_C10.1 [] 1 0 5 rfl,
   claim_C10.2.1 [(0, Sample.init)] 5 0 3 Sample.init rfl,
   (claim_C10.2.2.1 Sample.init 5 3).1 (by decide),
   (claim_C10.2.2.2 [hRow1] 0).2.2.1 (by
      intro row hmem hw
      rcases List.mem_singleton.mp hmem with rfl
      obtain ⟨base, vals, hp, hle, hlt⟩ := hw
      have hp2 : parseRowH hRow1 = some (1, 0, List.replicate 24 (10 : Rat)) := by
        decide
      rw [hp2] at hp
      injection hp with hpair
      have h15 : (1 : Int) = 5 := congrArg (fun p : Int × Nat × List Rat => p.1) hpair
      exact absurd h15 (by decide))⟩

end MetPV
